import Mathlib

/-!
Verification development for the review pipeline of an AI code-review
backend (module `backend/llm_service.py`, with issue conversion from
`backend/main.py`).  Python strings are modelled as `List Char`; Python
dicts that preserve insertion order are modelled as association lists.
The external JSON parser (`json.loads`) and the network transport are
modelled as oracle inputs: the outcome of the parse is passed to the
normaliser as an `Option Json` value, `none` standing for a parse
exception.
-/

namespace AICodeReview

/-- Python strings are sequences of unicode code points. -/
abbrev Str := List Char

/-! ## Python string primitives used by the source -/

/-- Line-boundary characters recognised by Python `str.splitlines`
(ASCII range plus NEL and the unicode line/paragraph separators). -/
def isLineBreakPy (c : Char) : Bool :=
  c = '\n' || c = '\r' || c = '\x0b' || c = '\x0c' ||
  c = '\x1c' || c = '\x1d' || c = '\x1e' || c = '\x85' ||
  c = ' ' || c = ' '

/-- Whitespace for Python `str.strip` / `str.isspace` (the line break
set plus space, tab and unit separator; rarer unicode spaces such as
NBSP are outside the scope of this model). -/
def isSpacePy (c : Char) : Bool :=
  isLineBreakPy c || c = ' ' || c = '\t' || c = '\x1f'

/-- Python `str.strip()`: remove leading and trailing whitespace. -/
def pyStrip (s : Str) : Str :=
  ((s.dropWhile isSpacePy).reverse.dropWhile isSpacePy).reverse

/-- Python `content.split(chr(10))`: split on the newline character.
Always returns at least one piece; `split` of the empty string is a
singleton list holding the empty string. -/
def splitOnNl : Str → List Str
  | [] => [[]]
  | c :: rest =>
    if c = '\n' then [] :: splitOnNl rest
    else
      match splitOnNl rest with
      | [] => [[c]]
      | l :: ls => (c :: l) :: ls

/-- Python `s.startswith(chr(35))`: does the string start with a hash. -/
def startsWithHash : Str → Bool
  | [] => false
  | c :: _ => c = '#'

/-- Case-folded character comparison (ASCII lowering), modelling
`re.IGNORECASE` and `str.lower()` comparisons. -/
def cEq (a b : Char) : Bool := a.toLower == b.toLower

/-- Python `s.lower()` (ASCII lowering). -/
def strLower (s : Str) : Str := s.map Char.toLower

/-- Auxiliary for `countOcc`: scan the text left to right; the counter
argument skips the remainder of an already counted occurrence so that
counting is non-overlapping, as in Python `str.count`. -/
def countOccAux (kw : Str) : Str → Nat → Nat
  | [], _ => 0
  | s :: rest, 0 =>
    if kw.isPrefixOf (s :: rest) then 1 + countOccAux kw rest (kw.length - 1)
    else countOccAux kw rest 0
  | _ :: rest, n + 1 => countOccAux kw rest n

/-- Python `text.count(kw)` for a non-empty needle: number of
non-overlapping occurrences of `kw` in the text. -/
def countOcc (kw s : Str) : Nat := countOccAux kw s 0

/-! ## MetricsCalculator (`calculate_code_metrics`) -/

/-- Round half to even, the rounding used by Python `round`.  Stated on
rationals; the source computes on binary floats, which agrees on all
values considered here. -/
def roundHalfEven (x : ℚ) : ℤ :=
  if x - ⌊x⌋ = 1 / 2 then (if ⌊x⌋ % 2 = 0 then ⌊x⌋ else ⌊x⌋ + 1)
  else round x

/-- Python `round(x, 2)`: round to two decimal places. -/
def round2 (x : ℚ) : ℚ := (roundHalfEven (x * 100) : ℚ) / 100

/-- Value of the `comment_ratio` field: the guarded, rounded percentage
`round(comment_lines / total_lines * 100, 2) if total_lines > 0 else 0`. -/
def pctOf (comment total : Nat) : ℚ :=
  if total > 0 then round2 ((comment : ℚ) / (total : ℚ) * 100) else 0

/-- Per-file metrics record produced by `calculate_code_metrics`.  The
field `comment_pct` is named `comment_ratio` in the source. -/
structure FileMetrics where
  total_lines : Nat
  code_lines : Nat
  comment_lines : Nat
  complexity_score : Nat
  comment_pct : ℚ
deriving DecidableEq

/-- Keyword set of the complexity heuristic. -/
def complexityKeywords : List Str :=
  ["if", "for", "while", "elif", "else", "try", "except", "def", "class"].map
    String.data

/-- Metrics of a single file, translated from the body of the loop in
`calculate_code_metrics`: the content is stripped, then split on
newlines; code lines are non-blank lines not starting with a hash after
trimming, comment lines are lines starting with a hash after trimming;
the complexity score counts keyword occurrences in the lowered content. -/
def fileMetricsOf (content : Str) : FileMetrics :=
  ⟨(splitOnNl (pyStrip content)).length,
   (splitOnNl (pyStrip content)).countP
     (fun l => !(pyStrip l).isEmpty && !startsWithHash (pyStrip l)),
   (splitOnNl (pyStrip content)).countP (fun l => startsWithHash (pyStrip l)),
   (complexityKeywords.map (fun kw => countOcc kw (strLower content))).sum,
   pctOf
     ((splitOnNl (pyStrip content)).countP (fun l => startsWithHash (pyStrip l)))
     (splitOnNl (pyStrip content)).length⟩

/-- Python dict preserving insertion order, mapping filenames to their
metrics: `calculate_code_metrics`. -/
def calculate_code_metrics (files : List (Str × Str)) : List (Str × FileMetrics) :=
  files.map (fun fc => (fc.1, fileMetricsOf fc.2))

/-! ## Basic lemmas about the line split and the percentage -/

theorem splitOnNl_ne_nil (s : Str) : splitOnNl s ≠ [] := by
  induction s with
  | nil => simp [splitOnNl]
  | cons c rest ih =>
    simp only [splitOnNl]
    by_cases h : c = '\n'
    · simp [h]
    · simp only [h, if_false]
      cases hr : splitOnNl rest with
      | nil => simp
      | cons l ls => simp

theorem splitOnNl_length_pos (s : Str) : 1 ≤ (splitOnNl s).length := by
  have h := splitOnNl_ne_nil s
  cases hs : splitOnNl s with
  | nil => exact absurd hs h
  | cons a l => simp

theorem roundHalfEven_le (x : ℚ) : roundHalfEven x ≤ ⌊x + 1 / 2⌋ := by
  unfold roundHalfEven
  by_cases h : x - ⌊x⌋ = 1 / 2
  · have hx : x + 1 / 2 = ((⌊x⌋ + 1 : ℤ) : ℚ) := by push_cast; linarith
    have hfl : ⌊x + 1 / 2⌋ = ⌊x⌋ + 1 := by rw [hx, Int.floor_intCast]
    rw [if_pos h, hfl]
    split <;> omega
  · rw [if_neg h, round_eq]

theorem le_roundHalfEven (x : ℚ) : ⌊x⌋ ≤ roundHalfEven x := by
  unfold roundHalfEven
  by_cases h : x - ⌊x⌋ = 1 / 2
  · rw [if_pos h]
    split <;> omega
  · rw [if_neg h, round_eq]
    exact Int.floor_le_floor (by linarith)

theorem pctOf_nonneg (c t : Nat) : 0 ≤ pctOf c t := by
  unfold pctOf
  split
  · unfold round2
    have h0 : (0 : ℤ) ≤ roundHalfEven ((c : ℚ) / (t : ℚ) * 100 * 100) := by
      have hx : (0 : ℚ) ≤ (c : ℚ) / (t : ℚ) * 100 * 100 := by positivity
      have := le_roundHalfEven ((c : ℚ) / (t : ℚ) * 100 * 100)
      have hf : (0 : ℤ) ≤ ⌊(c : ℚ) / (t : ℚ) * 100 * 100⌋ := Int.floor_nonneg.2 hx
      omega
    have : (0 : ℚ) ≤ (roundHalfEven ((c : ℚ) / (t : ℚ) * 100 * 100) : ℚ) := by
      exact_mod_cast h0
    exact div_nonneg this (by norm_num)
  · exact le_refl 0

theorem fileMetricsOf_comment_pct (content : Str) :
    (fileMetricsOf content).comment_pct =
      pctOf (fileMetricsOf content).comment_lines (fileMetricsOf content).total_lines := rfl

theorem pctOf_le_100 (c t : Nat) (h : c ≤ t) : pctOf c t ≤ 100 := by
  unfold pctOf
  split
  · rename_i ht
    unfold round2
    have htq : (0 : ℚ) < (t : ℚ) := by exact_mod_cast ht
    have hx : (c : ℚ) / (t : ℚ) * 100 * 100 ≤ 10000 := by
      have h1 : (c : ℚ) / (t : ℚ) ≤ 1 := by
        rw [div_le_one htq]
        exact_mod_cast h
      nlinarith
    have hup : roundHalfEven ((c : ℚ) / (t : ℚ) * 100 * 100) ≤ 10000 := by
      have h2 := roundHalfEven_le ((c : ℚ) / (t : ℚ) * 100 * 100)
      have h3 : ⌊(c : ℚ) / (t : ℚ) * 100 * 100 + 1 / 2⌋ ≤ ⌊(10000 : ℚ) + 1 / 2⌋ :=
        Int.floor_le_floor (by linarith)
      have h4 : ⌊(10000 : ℚ) + 1 / 2⌋ = 10000 := by
        rw [show ((10000 : ℚ) + 1 / 2) = ((10000 : ℤ) : ℚ) + 1 / 2 by norm_num,
          Int.floor_int_add]
        norm_num [Int.floor_eq_zero_iff]
      omega
    have hq : ((roundHalfEven ((c : ℚ) / (t : ℚ) * 100 * 100)) : ℚ) ≤ 10000 := by
      exact_mod_cast hup
    rw [div_le_iff₀ (by norm_num : (0 : ℚ) < 100)]
    linarith
  · norm_num

theorem pctOf_comment_zero (t : Nat) : pctOf 0 t = 0 := by
  unfold pctOf
  split
  · unfold round2 roundHalfEven
    norm_num
  · rfl

theorem length_eq_countP_three {α : Type} (p q r : α → Bool) (l : List α)
    (h : ∀ x, (p x = false ∧ q x = false ∧ r x = true) ∨
      (p x = false ∧ q x = true ∧ r x = false) ∨
      (p x = true ∧ q x = false ∧ r x = false)) :
    l.length = l.countP p + l.countP q + l.countP r := by
  induction l with
  | nil => simp
  | cons a l ih =>
    rcases h a with ⟨h1, h2, h3⟩ | ⟨h1, h2, h3⟩ | ⟨h1, h2, h3⟩ <;>
      simp [List.countP_cons, h1, h2, h3, ih] <;> omega

/-- Each line is exactly one of: blank after trimming, a comment line, or
a code line. -/
theorem line_classes_partition (x : Str) :
    ((fun l => !(pyStrip l).isEmpty && !startsWithHash (pyStrip l)) x = false ∧
      (fun l => startsWithHash (pyStrip l)) x = false ∧
      (fun l => (pyStrip l).isEmpty) x = true) ∨
    ((fun l => !(pyStrip l).isEmpty && !startsWithHash (pyStrip l)) x = false ∧
      (fun l => startsWithHash (pyStrip l)) x = true ∧
      (fun l => (pyStrip l).isEmpty) x = false) ∨
    ((fun l => !(pyStrip l).isEmpty && !startsWithHash (pyStrip l)) x = true ∧
      (fun l => startsWithHash (pyStrip l)) x = false ∧
      (fun l => (pyStrip l).isEmpty) x = false) := by
  rcases hs : pyStrip x with _ | ⟨c, cs⟩
  · left
    simp [hs, startsWithHash]
  · by_cases hc : c = '#'
    · right; left
      simp [hs, startsWithHash, hc]
    · right; right
      simp [hs, startsWithHash, hc]

/-! ## Claim theorems about the metrics calculator -/

/-- C10: for every file content, including the empty string and
whitespace-only content, the computed `total_lines` is at least 1, so
the `total_lines = 0` guard of the comment-ratio division is never
taken: the ratio always equals the unguarded rounded percentage. -/
theorem total_lines_always_positive (content : Str) :
    1 ≤ (fileMetricsOf content).total_lines ∧
    (fileMetricsOf content).comment_pct =
      round2 (((fileMetricsOf content).comment_lines : ℚ) /
        ((fileMetricsOf content).total_lines : ℚ) * 100) := by
  constructor
  · exact splitOnNl_length_pos _
  · rw [fileMetricsOf_comment_pct]
    unfold pctOf
    rw [if_pos]
    exact splitOnNl_length_pos _

/-- C6 counterexample: for the content consisting of the single
character x followed by a newline, the computed `total_lines` (which is
1, because the content is stripped before splitting) differs from
`code_lines + comment_lines +` the count of the blank lines of the raw
content (1 + 0 + 1 = 2). -/
theorem metrics_partition_cex :
    ¬ ((fileMetricsOf ("x\n".data)).total_lines =
        (fileMetricsOf ("x\n".data)).code_lines +
          (fileMetricsOf ("x\n".data)).comment_lines +
          (splitOnNl ("x\n".data)).countP (fun l => (pyStrip l).isEmpty)) := by
  decide

/-- C6 amended: `total_lines = code_lines + comment_lines + blank`,
where the blank lines are counted among the lines of the
whitespace-stripped content — the same line list the calculator splits —
rather than among the lines of the raw file content. -/
theorem metrics_line_partition (content : Str) :
    (fileMetricsOf content).total_lines =
      (fileMetricsOf content).code_lines + (fileMetricsOf content).comment_lines +
        (splitOnNl (pyStrip content)).countP (fun l => (pyStrip l).isEmpty) :=
  length_eq_countP_three _ _ _ _ line_classes_partition

/-- C7 counterexample: for the one-line content x, the comment ratio is
0 while `total_lines` is 1, so the ratio being 0 is not equivalent to
`total_lines` being 0. -/
theorem comment_pct_zero_iff_cex :
    ¬ ((fileMetricsOf ("x".data)).comment_pct = 0 ↔
        (fileMetricsOf ("x".data)).total_lines = 0) := by
  intro h
  have h1 : (fileMetricsOf ("x".data)).comment_pct = 0 := pctOf_comment_zero 1
  exact absurd (h.mp h1) (by decide)

/-- C7 amended: the comment ratio always lies in the interval [0, 100],
and it equals 0 whenever the file has no comment lines (the
`total_lines = 0` case of the guard is unreachable, `total_lines` being
always positive). -/
theorem comment_pct_bounds (content : Str) :
    0 ≤ (fileMetricsOf content).comment_pct ∧
    (fileMetricsOf content).comment_pct ≤ 100 ∧
    ((fileMetricsOf content).comment_lines = 0 →
      (fileMetricsOf content).comment_pct = 0) := by
  refine ⟨?_, ?_, ?_⟩
  · rw [fileMetricsOf_comment_pct]
    exact pctOf_nonneg _ _
  · rw [fileMetricsOf_comment_pct]
    exact pctOf_le_100 _ _ (List.countP_le_length _)
  · intro h
    rw [fileMetricsOf_comment_pct, h]
    exact pctOf_comment_zero _

/-- Witness for C7 at the one-line content x, which has no comment
lines. -/
theorem comment_pct_bounds_witness :
    (fileMetricsOf ("x".data)).comment_lines = 0 ∧
      (fileMetricsOf ("x".data)).comment_pct = 0 :=
  ⟨by decide, (comment_pct_bounds ("x".data)).2.2 (by decide)⟩

/-! ## PromptBuilder (`_build_prompt_from_files`) -/

/-- Truncation marker appended to over-long files. -/
def truncMarker : Str := "\n\n[...TRUNCATED...]".data

/-- Section of the user prompt devoted to one file, translated from the
loop body of `_build_prompt_from_files`: contents longer than the 8000
character budget are cut to the budget and the truncation marker is
appended; the section wraps the content in named begin and end markers. -/
def fileSectionOf (filename content : Str) : Str :=
  "--- BEGIN FILE: ".data ++ filename ++ " ---\n".data ++
    (if 8000 < content.length then content.take 8000 ++ truncMarker else content) ++
    "\n--- END FILE ---\n".data

/-- Python `chr(10).join(parts)` over the per-file sections:
`_build_prompt_from_files`. -/
def build_prompt_from_files (files : List (Str × Str)) : Str :=
  List.intercalate ("\n".data) (files.map (fun fc => fileSectionOf fc.1 fc.2))

/-- C4: a file longer than 8000 characters contributes exactly its first
8000 characters followed by the truncation marker (and the fixed
delimiters), nothing of the tail; a file of at most 8000 characters is
embedded unchanged. -/
theorem file_section_truncation (filename content : Str) :
    (8000 < content.length →
      fileSectionOf filename content =
        "--- BEGIN FILE: ".data ++ filename ++ " ---\n".data ++
          content.take 8000 ++ "\n\n[...TRUNCATED...]".data ++
          "\n--- END FILE ---\n".data) ∧
    (content.length ≤ 8000 →
      fileSectionOf filename content =
        "--- BEGIN FILE: ".data ++ filename ++ " ---\n".data ++ content ++
          "\n--- END FILE ---\n".data) := by
  constructor
  · intro h
    unfold fileSectionOf truncMarker
    rw [if_pos h]
    simp [List.append_assoc]
  · intro h
    unfold fileSectionOf
    rw [if_neg (by omega)]

/-- Witness for C4 at a file of 8001 characters. -/
theorem file_section_truncation_witness :
    8000 < (List.replicate 8001 'a').length ∧
    fileSectionOf ("a.py".data) (List.replicate 8001 'a') =
      "--- BEGIN FILE: ".data ++ "a.py".data ++ " ---\n".data ++
        (List.replicate 8001 'a').take 8000 ++ "\n\n[...TRUNCATED...]".data ++
        "\n--- END FILE ---\n".data :=
  ⟨by simp only [List.length_replicate]; omega,
    (file_section_truncation ("a.py".data) (List.replicate 8001 'a')).1
      (by simp only [List.length_replicate]; omega)⟩

/-! ## JSON values and the response normaliser -/

/-- JSON values as produced by `json.loads`.  Integer literals parse to
Python ints (`int`), other numbers to floats (`num`, modelled as
rationals). -/
inductive Json where
  | null : Json
  | bool (b : Bool) : Json
  | int (n : ℤ) : Json
  | num (q : ℚ) : Json
  | str (s : Str) : Json
  | arr (elems : List Json) : Json
  | obj (fields : List (Str × Json)) : Json

/-- Python `d.get(k, default)` on a parsed JSON object.  Objects coming
out of `json.loads` have unique keys (later duplicates overwrite earlier
ones during parsing), so first-match lookup is exact. -/
def jsonGetD (kvs : List (Str × Json)) (k : Str) (d : Json) : Json :=
  match List.lookup k kvs with
  | some v => v
  | none => d

/-- Auxiliary for `pySplitlines`: accumulates the current line in
reverse; a CRLF pair counts as a single boundary; a boundary at the very
end of the text opens no further line. -/
def slGo : Str → Str → List Str
  | [], acc => [acc.reverse]
  | '\r' :: '\n' :: rest, acc =>
    acc.reverse :: (match rest with | [] => [] | _ :: _ => slGo rest [])
  | c :: rest, acc =>
    if isLineBreakPy c then
      acc.reverse :: (match rest with | [] => [] | _ :: _ => slGo rest [])
    else slGo rest (c :: acc)

/-- Python `str.splitlines()`: empty string gives no lines; otherwise
split at line boundaries, with no trailing empty line for a trailing
boundary. -/
def pySplitlines : Str → List Str
  | [] => []
  | s => slGo s []

/-- Normalised review shape returned by `review_code_with_llm`: the
seven keys of the result dict, in source order.  Fields that come from
the model reply are arbitrary JSON values; `metrics` always holds the
calculator output. -/
structure ReviewResult where
  summary : Json
  details : Json
  quality_score : Json
  strengths : Json
  issues : Json
  metrics : List (Str × FileMetrics)
  raw_response : Str

/-- Translation of `_fallback_parse`: the stripped text becomes
`details`, its first five lines (of the stripped text, per
`text.strip().splitlines()`) joined by newlines become `summary`, the
quality score is the neutral 5.0, issue and strength lists are empty,
and the original text is kept verbatim as `raw_response`.  The metrics
entry starts empty and is overwritten by the caller. -/
def fallbackParse (text : Str) : ReviewResult :=
  ⟨Json.str (List.intercalate ("\n".data) ((pySplitlines (pyStrip text)).take 5)),
   Json.str (pyStrip text),
   Json.num 5,
   Json.arr [],
   Json.arr [],
   [],
   text⟩

/-- Normalisation step of `review_code_with_llm` after the transport
returns `content`: the outcome of `json.loads(content)` is passed as an
oracle (`none` models a parse exception).  When the parse yields a dict,
fields are projected with defaults; any other outcome — a parse failure,
or a non-dict JSON value, on which the attribute access `parsed.get`
raises inside the same try block — takes the fallback path.  In both
branches `metrics` is the externally computed map. -/
def normalizeResponse (metrics : List (Str × FileMetrics)) (content : Str)
    (parsed : Option Json) : ReviewResult :=
  match parsed with
  | some (Json.obj kvs) =>
    ⟨jsonGetD kvs ("summary".data) (Json.str []),
     jsonGetD kvs ("details".data) (Json.str []),
     jsonGetD kvs ("quality_score".data) (Json.num 5),
     jsonGetD kvs ("strengths".data) (Json.arr []),
     jsonGetD kvs ("issues".data) (Json.arr []),
     metrics,
     content⟩
  | _ =>
    ⟨(fallbackParse content).summary,
     (fallbackParse content).details,
     (fallbackParse content).quality_score,
     (fallbackParse content).strengths,
     (fallbackParse content).issues,
     metrics,
     (fallbackParse content).raw_response⟩

/-- Error raised when the credential is missing. -/
inductive LLMError where
  | configError (msg : Str)

/-- Python truthiness test `if not GROQ_API_KEY`: the environment
variable is absent, or present but empty. -/
def credentialMissing : Option Str → Bool
  | none => true
  | some k => k.isEmpty

/-- Pipeline `review_code_with_llm`, with the transport reply `content`
and its parse outcome passed as oracles: the credential check comes
first; then metrics are computed and attached to the normalised
response. -/
def review_code_with_llm (apiKey : Option Str) (files : List (Str × Str))
    (content : Str) (parsed : Option Json) : Except LLMError ReviewResult :=
  if credentialMissing apiKey then
    Except.error (LLMError.configError ("GROQ_API_KEY is not set in environment (.env).".data))
  else
    Except.ok (normalizeResponse (calculate_code_metrics files) content parsed)

theorem normalizeResponse_metrics (m : List (Str × FileMetrics)) (content : Str)
    (parsed : Option Json) : (normalizeResponse m content parsed).metrics = m := by
  cases parsed with
  | none => rfl
  | some j => cases j <;> rfl

theorem calculate_code_metrics_keys (files : List (Str × Str)) :
    (calculate_code_metrics files).map Prod.fst = files.map Prod.fst := by
  induction files with
  | nil => rfl
  | cons f fs ih => simp [calculate_code_metrics] at ih ⊢

/-- C1: whenever the pipeline returns a result, its `metrics` field is
the map computed by `calculate_code_metrics` — never anything taken from
the parsed model JSON, on the parsed path as well as on the fallback
path — and its keys are exactly the FileSet keys. -/
theorem pipeline_metrics_from_calculator (apiKey : Option Str)
    (files : List (Str × Str)) (content : Str) (parsed : Option Json)
    (r : ReviewResult) (h : review_code_with_llm apiKey files content parsed = Except.ok r) :
    r.metrics = calculate_code_metrics files ∧
    r.metrics.map Prod.fst = files.map Prod.fst := by
  unfold review_code_with_llm at h
  by_cases hc : credentialMissing apiKey
  · rw [if_pos hc] at h
    exact absurd h (by simp)
  · rw [if_neg hc] at h
    have hr : r = normalizeResponse (calculate_code_metrics files) content parsed := by
      cases h
      rfl
    rw [hr, normalizeResponse_metrics]
    exact ⟨rfl, calculate_code_metrics_keys files⟩

/-- Witness for C1: a parsed model reply that itself carries a fake
metrics key is ignored in favour of the calculator output. -/
theorem pipeline_metrics_witness :
    (normalizeResponse (calculate_code_metrics [(("a.py").data, ("x").data)])
        (("notjson").data) (some (Json.obj [(("metrics").data, Json.num 0)]))).metrics =
      calculate_code_metrics [(("a.py").data, ("x").data)] ∧
    (normalizeResponse (calculate_code_metrics [(("a.py").data, ("x").data)])
        (("notjson").data) (some (Json.obj [(("metrics").data, Json.num 0)]))).metrics.map
        Prod.fst = [(("a.py").data, ("x").data)].map Prod.fst :=
  pipeline_metrics_from_calculator (some ("k".data)) [(("a.py").data, ("x").data)]
    (("notjson").data) (some (Json.obj [(("metrics").data, Json.num 0)])) _ rfl

/-- C2 counterexample: on the raw text x-newline, which fails JSON
parsing, the fallback `details` is the stripped text x, not the full raw
text. -/
theorem fallback_details_cex :
    (normalizeResponse [] ("x\n".data) none).details ≠ Json.str ("x\n".data) := by
  have hd : (normalizeResponse [] ("x\n".data) none).details = Json.str ("x".data) := rfl
  rw [hd]
  intro h
  simp at h

/-- C2 amended: on any parse failure the fallback result has `details`
equal to the whitespace-stripped raw text, `summary` equal to the first
5 lines of the stripped text joined by newlines, quality score 5.0,
empty issue and strength lists, and `raw_response` equal to the original
text verbatim. -/
theorem fallback_fields (metrics : List (Str × FileMetrics)) (text : Str) :
    (normalizeResponse metrics text none).details = Json.str (pyStrip text) ∧
    (normalizeResponse metrics text none).summary =
      Json.str (List.intercalate ("\n".data) ((pySplitlines (pyStrip text)).take 5)) ∧
    (normalizeResponse metrics text none).quality_score = Json.num 5 ∧
    (normalizeResponse metrics text none).issues = Json.arr [] ∧
    (normalizeResponse metrics text none).strengths = Json.arr [] ∧
    (normalizeResponse metrics text none).raw_response = text ∧
    (normalizeResponse metrics text none).metrics = metrics :=
  ⟨rfl, rfl, rfl, rfl, rfl, rfl, rfl⟩

/-! ## Issue conversion (`backend/main.py`) -/

/-- Typed issue record of `schemas.Issue` (pydantic model): all fields
required except `code_patch`, which defaults to the empty string and
admits null. -/
structure Issue where
  id : Str
  file : Str
  line_start : Int
  line_end : Int
  severity : Str
  category : Str
  message : Str
  suggestion : Str
  code_patch : Option Str
deriving DecidableEq

/-- Required string field of a pydantic model: present and a string, or
a validation error naming the field. -/
def getStrField (kvs : List (Str × Json)) (k : Str) : Except Str Str :=
  match List.lookup k kvs with
  | some (Json.str s) => Except.ok s
  | _ => Except.error k

/-- Required int field of a pydantic model. -/
def getIntField (kvs : List (Str × Json)) (k : Str) : Except Str Int :=
  match List.lookup k kvs with
  | some (Json.int n) => Except.ok n
  | _ => Except.error k

/-- Optional string field with default empty string; null maps to the
Python None. -/
def getOptStrField (kvs : List (Str × Json)) (k : Str) : Except Str (Option Str) :=
  match List.lookup k kvs with
  | none => Except.ok (some [])
  | some Json.null => Except.ok none
  | some (Json.str s) => Except.ok (some s)
  | some _ => Except.error k

/-- Python `Issue(**issue)`: pydantic validation of one issue mapping.
A mapping that lacks a required field (or carries an ill-typed value)
raises a validation error. -/
def issueFromJson : Json → Except Str Issue
  | Json.obj kvs => do
    let i ← getStrField kvs ("id".data)
    let f ← getStrField kvs ("file".data)
    let l1 ← getIntField kvs ("line_start".data)
    let l2 ← getIntField kvs ("line_end".data)
    let sev ← getStrField kvs ("severity".data)
    let cat ← getStrField kvs ("category".data)
    let msg ← getStrField kvs ("message".data)
    let sug ← getStrField kvs ("suggestion".data)
    let cp ← getOptStrField kvs ("code_patch".data)
    pure ⟨i, f, l1, l2, sev, cat, msg, sug, cp⟩
  | _ => Except.error ("not a mapping".data)

/-- Is the JSON value a mapping (Python `isinstance(issue, dict)`). -/
def isJsonObj : Json → Bool
  | Json.obj _ => true
  | _ => false

/-- Translation of the comprehension at `main.py:121`,
`[Issue(**issue) for issue in issues if isinstance(issue, dict)]`:
entries that are not mappings are filtered out; the first mapping that
fails validation raises, aborting the whole conversion. -/
def convertIssues : List Json → Except Str (List Issue)
  | [] => Except.ok []
  | Json.obj kvs :: rest =>
    match issueFromJson (Json.obj kvs) with
    | Except.error e => Except.error e
    | Except.ok i =>
      match convertIssues rest with
      | Except.error e => Except.error e
      | Except.ok is => Except.ok (i :: is)
  | _ :: rest => convertIssues rest

/-- Translation of the issue decoding in `get_report`
(`main.py:181-188`): a non-list value yields no issues, and any
validation error inside the comprehension is caught, discarding the
entire list. -/
def reportIssues (raw : Json) : List Issue :=
  match raw with
  | Json.arr items =>
    (match convertIssues items with
     | Except.ok xs => xs
     | Except.error _ => [])
  | _ => []

/-- Well-formed issue mapping used in concrete checks. -/
def goodIssueJson : Json :=
  Json.obj [(("id").data, Json.str ("1".data)),
    (("file").data, Json.str ("a.py".data)),
    (("line_start").data, Json.int 1),
    (("line_end").data, Json.int 1),
    (("severity").data, Json.str ("low".data)),
    (("category").data, Json.str ("bug".data)),
    (("message").data, Json.str ("m".data)),
    (("suggestion").data, Json.str ("s".data))]

/-- Issue mapping missing all required fields but `id`. -/
def badIssueJson : Json := Json.obj [(("id").data, Json.str ("2".data))]

/-- C3 counterexample: a list holding a well-formed issue mapping and a
mapping missing required fields.  The review-endpoint conversion raises
instead of dropping the bad entry, and the report-endpoint conversion
discards the well-formed entry along with the bad one. -/
theorem issue_conversion_cex :
    (convertIssues [goodIssueJson, badIssueJson]).isOk = false ∧
    reportIssues (Json.arr [goodIssueJson, badIssueJson]) = [] := by
  decide

/-- C3 amended: entries of the parsed issues list that are not mappings
are silently dropped without aborting the conversion; but a malformed
mapping is not dropped — it fails the whole conversion (an uncaught
validation error in the review endpoint; in the report endpoint the
enclosing handler then discards the entire list). -/
theorem issue_conversion_drops_nonmappings (l : List Json) :
    convertIssues l = convertIssues (l.filter isJsonObj) ∧
    ((∀ j ∈ l, isJsonObj j = true → (issueFromJson j).isOk = true) →
      (convertIssues l).isOk = true) := by
  induction l with
  | nil => exact ⟨rfl, fun _ => rfl⟩
  | cons j rest ih =>
    constructor
    · cases j with
      | obj kvs =>
        simp only [convertIssues, List.filter_cons, isJsonObj, if_pos]
        rw [ih.1]
      | null => simpa [convertIssues, List.filter_cons, isJsonObj] using ih.1
      | bool b => simpa [convertIssues, List.filter_cons, isJsonObj] using ih.1
      | int n => simpa [convertIssues, List.filter_cons, isJsonObj] using ih.1
      | num q => simpa [convertIssues, List.filter_cons, isJsonObj] using ih.1
      | str s => simpa [convertIssues, List.filter_cons, isJsonObj] using ih.1
      | arr es => simpa [convertIssues, List.filter_cons, isJsonObj] using ih.1
    · intro h
      have hrest : (convertIssues rest).isOk = true :=
        ih.2 (fun x hx => h x (List.mem_cons_of_mem j hx))
      cases j with
      | obj kvs =>
        have hj : (issueFromJson (Json.obj kvs)).isOk = true :=
          h (Json.obj kvs) (List.mem_cons_self _ _) rfl
        simp only [convertIssues]
        cases hi : issueFromJson (Json.obj kvs) with
        | error e =>
          rw [hi] at hj
          exact absurd hj (by simp [Except.isOk, Except.toBool])
        | ok i =>
          cases hr : convertIssues rest with
          | error e =>
            rw [hr] at hrest
            exact absurd hrest (by simp [Except.isOk, Except.toBool])
          | ok is => rfl
      | null => exact hrest
      | bool b => exact hrest
      | int n => exact hrest
      | num q => exact hrest
      | str s => exact hrest
      | arr es => exact hrest

/-- Witness for C3 at a list holding a well-formed mapping and a plain
string entry: the string is dropped and the conversion succeeds. -/
theorem issue_conversion_witness :
    (convertIssues [goodIssueJson, Json.str ("x".data)]).isOk = true :=
  (issue_conversion_drops_nonmappings [goodIssueJson, Json.str ("x".data)]).2 (by decide)

/-! ## SecurityScanner (`scan_security_issues`)

The Python source matches fixed regular expressions with `re.search`
under `re.IGNORECASE`.  The patterns use only literals, character
classes, star and plus over classes, the any-char-but-newline dot, and
one leading word-boundary anchor; they are embedded as token lists and
matched by a standard NFA stepper, which decides exactly the existence
of a match. -/

/-- Regex token: literal, single character class, star or plus over a
class (`neg` marks a complemented class). -/
inductive RTok where
  | lit (c : Char)
  | cls (neg : Bool) (cs : List Char)
  | star (neg : Bool) (cs : List Char)
  | plus (neg : Bool) (cs : List Char)

/-- Class membership, case-folded as under `re.IGNORECASE`. -/
def inCls (neg : Bool) (cs : List Char) (x : Char) : Bool :=
  if neg then !(cs.any (fun c => cEq c x)) else cs.any (fun c => cEq c x)

/-- Can the remaining pattern match the empty string. -/
def nullable : List RTok → Bool
  | [] => true
  | RTok.star _ _ :: ts => nullable ts
  | _ => false

/-- All pattern states reachable by consuming one character `x`. -/
def consume : List RTok → Char → List (List RTok)
  | [], _ => []
  | RTok.lit c :: ts, x => if cEq c x then [ts] else []
  | RTok.cls n cs :: ts, x => if inCls n cs x then [ts] else []
  | RTok.plus n cs :: ts, x => if inCls n cs x then [RTok.star n cs :: ts] else []
  | RTok.star n cs :: ts, x =>
    (if inCls n cs x then [RTok.star n cs :: ts] else []) ++ consume ts x

/-- NFA step loop: does some state complete on some prefix of `s`. -/
def goMatch : List (List RTok) → Str → Bool
  | states, [] => states.any nullable
  | states, x :: xs =>
    states.any nullable || goMatch (states.flatMap (fun st => consume st x)) xs

/-- Does the token pattern match some prefix of `s`. -/
def matchToks (ts : List RTok) (s : Str) : Bool := goMatch [ts] s

/-- Word character for the boundary anchor (ASCII model of backslash-w). -/
def isWordChar (c : Char) : Bool := c.isAlphanum || c = '_'

/-- Word-ness of an optional character (none at the text edges). -/
def isWordO : Option Char → Bool
  | some c => isWordChar c
  | none => false

/-- Word boundary between an optional previous and next character. -/
def boundaryAt (prev next : Option Char) : Bool := isWordO prev != isWordO next

/-- Compiled pattern: an optional leading word-boundary anchor (the only
anchor occurring in the source patterns) and the token list. -/
structure RePat where
  wbStart : Bool
  toks : List RTok

/-- Attempt a match at the current position, `prev` being the character
just before it. -/
def tryAt (p : RePat) (prev : Option Char) (s : Str) : Bool :=
  (!p.wbStart || boundaryAt prev s.head?) && matchToks p.toks s

/-- Scan all start positions left to right: Python `re.search`. -/
def searchFrom (p : RePat) (prev : Option Char) : Str → Bool
  | [] => tryAt p prev []
  | x :: xs => tryAt p prev (x :: xs) || searchFrom p (some x) xs

/-- Python `re.search(p, s, re.IGNORECASE)` as a Boolean. -/
def reSearch (p : RePat) (s : Str) : Bool := searchFrom p none s

/-- Literal run of pattern tokens. -/
def lits (s : Str) : List RTok := s.map RTok.lit

/-- Python regex backslash-s class (ASCII model). -/
def spaceCls : List Char := [' ', '\t', '\n', '\r', '\x0b', '\x0c']

/-- Class of the two quote characters. -/
def quoteCls : List Char := ['"', '\'']

/-- Dot-star: any run of characters other than newline. -/
def dotStar : RTok := RTok.star true ['\n']

/-- First sql_injection pattern: execute, optional space, open paren,
optional space, a quote, anything, percent-s. -/
def reExecFmt : RePat :=
  ⟨false, lits ("execute".data) ++
    [RTok.star false spaceCls, RTok.lit '(', RTok.star false spaceCls,
     RTok.cls false quoteCls, dotStar] ++ lits ("%s".data)⟩

/-- Second sql_injection pattern: cursor.execute, anything, plus sign. -/
def reCursorConcat : RePat :=
  ⟨false, lits ("cursor.execute".data) ++ [dotStar, RTok.lit '+']⟩

/-- First hardcoded_secrets pattern: password, optional space, equals,
optional space, a quoted non-empty string. -/
def rePassword : RePat :=
  ⟨false, lits ("password".data) ++
    [RTok.star false spaceCls, RTok.lit '=', RTok.star false spaceCls,
     RTok.cls false quoteCls, RTok.plus true quoteCls, RTok.cls false quoteCls]⟩

/-- Second hardcoded_secrets pattern: api_key, same right-hand side. -/
def reApiKey : RePat :=
  ⟨false, lits ("api_key".data) ++
    [RTok.star false spaceCls, RTok.lit '=', RTok.star false spaceCls,
     RTok.cls false quoteCls, RTok.plus true quoteCls, RTok.cls false quoteCls]⟩

/-- First unsafe_eval pattern: word boundary then eval and open paren. -/
def reEval : RePat := ⟨true, lits ("eval(".data)⟩

/-- Second unsafe_eval pattern: word boundary then exec and open paren. -/
def reExec : RePat := ⟨true, lits ("exec(".data)⟩

/-- First command_injection pattern: os.system(. -/
def reOsSystem : RePat := ⟨false, lits ("os.system(".data)⟩

/-- Second command_injection pattern: subprocess.call( then anything
then shell=True. -/
def reSubprocess : RePat :=
  ⟨false, lits ("subprocess.call(".data) ++ [dotStar] ++ lits ("shell=True".data)⟩

/-- The patterns dict of `scan_security_issues`, in declaration order. -/
def securityPatterns : List (Str × List RePat) :=
  [(("sql_injection").data, [reExecFmt, reCursorConcat]),
   (("hardcoded_secrets").data, [rePassword, reApiKey]),
   (("unsafe_eval").data, [reEval, reExec]),
   (("command_injection").data, [reOsSystem, reSubprocess])]

/-- Python `s.replace(chr(95), chr(32))`: underscores become spaces. -/
def pyReplaceUnd (s : Str) : Str := s.map (fun c => if c = '_' then ' ' else c)

/-- Auxiliary for `pyTitle`; the flag records whether the previous
character was cased. -/
def pyTitleAux : Bool → Str → Str
  | _, [] => []
  | prevC, c :: rest =>
    if c.isAlpha then
      (if prevC then c.toLower else c.toUpper) :: pyTitleAux true rest
    else c :: pyTitleAux false rest

/-- Python `s.title()` (ASCII model): the first letter of each run of
letters is uppercased, the rest lowercased. -/
def pyTitle (s : Str) : Str := pyTitleAux false s

/-- Human-readable category name:
`vuln_type.replace(chr(95), chr(32)).title()`. -/
def displayType (s : Str) : Str := pyTitle (pyReplaceUnd s)

/-- One security finding: file, 1-based line number, category display
name, trimmed line text. -/
structure Finding where
  file : Str
  line : Nat
  type : Str
  code : Str
deriving DecidableEq

/-- Python `enumerate(lines, n)`. -/
def enumFrom {α : Type} (n : Nat) : List α → List (Nat × α)
  | [] => []
  | x :: xs => (n, x) :: enumFrom (n + 1) xs

/-- Findings of one line: for each category in declaration order, for
each of its regexes in order, a finding per matching regex. -/
def scanLine (fn : Str) (ln : Nat) (line : Str) : List Finding :=
  securityPatterns.flatMap (fun vc =>
    vc.2.flatMap (fun p =>
      if reSearch p line then [⟨fn, ln, displayType vc.1, pyStrip line⟩] else []))

/-- Findings of one file: lines are the raw content split on newlines,
enumerated from 1. -/
def scanFile (fn content : Str) : List Finding :=
  (enumFrom 1 (splitOnNl content)).flatMap (fun nl => scanLine fn nl.1 nl.2)

/-- Python `scan_security_issues`: iterate the FileSet in insertion
order, appending findings. -/
def scan_security_issues (files : List (Str × Str)) : List Finding :=
  files.flatMap (fun fc => scanFile fc.1 fc.2)

/-! ## Matching lemmas for the scanner -/

theorem goMatch_of_any_nullable (sts : List (List RTok)) (t : Str)
    (h : sts.any nullable = true) : goMatch sts t = true := by
  cases t with
  | nil => exact h
  | cons x xs => simp [goMatch, h]

theorem goMatch_append (s t : Str) : ∀ sts, goMatch sts s = true →
    goMatch sts (s ++ t) = true := by
  induction s with
  | nil => exact fun sts h => goMatch_of_any_nullable sts t h
  | cons x xs ih =>
    intro sts h
    simp only [goMatch, Bool.or_eq_true] at h
    rcases h with h1 | h2
    · simp [goMatch, h1]
    · simp [goMatch, ih _ h2]

theorem matchToks_append (ts : List RTok) (s t : Str)
    (h : matchToks ts s = true) : matchToks ts (s ++ t) = true :=
  goMatch_append s t [ts] h

theorem matchToks_nil (s : Str) : matchToks [] s = true := by
  cases s with
  | nil => rfl
  | cons x xs => simp [matchToks, goMatch, nullable]

theorem matchToks_lits (L : Str) : ∀ (w : Str) (ts : List RTok) (s : Str),
    strLower w = strLower L → matchToks ts s = true →
    matchToks (lits L ++ ts) (w ++ s) = true := by
  induction L with
  | nil =>
    intro w ts s hw hm
    have hwn : w = [] := by
      cases w with
      | nil => rfl
      | cons c cs => simp [strLower] at hw
    subst hwn
    simpa [lits] using hm
  | cons c L2 ih =>
    intro w ts s hw hm
    cases w with
    | nil => simp [strLower] at hw
    | cons x w2 =>
      simp only [strLower, List.map_cons, List.cons.injEq] at hw
      obtain ⟨hx, hw2⟩ := hw
      have hce : cEq c x = true := by simp [cEq, hx]
      simp only [lits, List.map_cons, List.cons_append, matchToks, goMatch,
        nullable, consume, hce, if_true, List.any_cons, List.any_nil,
        List.flatMap_cons, List.flatMap_nil, List.append_nil, Bool.false_or]
      exact ih w2 ts s hw2 hm

/-- Character just before the position right after `pre`, when scanning
starts with previous character `prev`. -/
def lastOpt (pre : Str) (prev : Option Char) : Option Char :=
  match pre.getLast? with
  | some c => some c
  | none => prev

theorem lastOpt_cons (c : Char) (pre : Str) (prev : Option Char) :
    lastOpt (c :: pre) prev = lastOpt pre (some c) := by
  cases pre with
  | nil => simp [lastOpt]
  | cons d rest =>
    simp only [lastOpt, List.getLast?_cons_cons]
    cases hg : (d :: rest).getLast? with
    | none => simp at hg
    | some e => rfl

theorem searchFrom_intro (p : RePat) : ∀ (pre : Str) (prev : Option Char) (s : Str),
    tryAt p (lastOpt pre prev) s = true → searchFrom p prev (pre ++ s) = true := by
  intro pre
  induction pre with
  | nil =>
    intro prev s h
    simp only [lastOpt, List.getLast?] at h
    cases s with
    | nil => exact h
    | cons x xs => simp [searchFrom, h]
  | cons c pre2 ih =>
    intro prev s h
    rw [lastOpt_cons] at h
    simp only [List.cons_append, searchFrom]
    simp [ih (some c) s h]

theorem enumFrom_get? {α : Type} : ∀ (l : List α) (n i : Nat) (x : α),
    l.get? i = some x → (n + i, x) ∈ enumFrom n l := by
  intro l
  induction l with
  | nil => intro n i x h; simp [List.get?] at h
  | cons a rest ih =>
    intro n i x h
    cases i with
    | zero =>
      simp [List.get?] at h
      subst h
      simp [enumFrom]
    | succ j =>
      have hm := ih (n + 1) j x (by simpa [List.get?] using h)
      have heq : n + (j + 1) = n + 1 + j := by omega
      rw [heq]
      exact List.mem_cons_of_mem _ hm

theorem finding_mem_scan (files : List (Str × Str)) (fn content line : Str)
    (i : Nat) (ct : Str) (rs : List RePat) (p : RePat)
    (hf : (fn, content) ∈ files) (hl : (splitOnNl content).get? i = some line)
    (hc : (ct, rs) ∈ securityPatterns) (hp : p ∈ rs) (hs : reSearch p line = true) :
    (⟨fn, i + 1, displayType ct, pyStrip line⟩ : Finding) ∈ scan_security_issues files := by
  unfold scan_security_issues
  refine List.mem_flatMap.mpr ⟨(fn, content), hf, ?_⟩
  unfold scanFile
  refine List.mem_flatMap.mpr ⟨(i + 1, line), ?_, ?_⟩
  · have := enumFrom_get? (splitOnNl content) 1 i line hl
    simpa [Nat.add_comm] using this
  · unfold scanLine
    refine List.mem_flatMap.mpr ⟨(ct, rs), hc, ?_⟩
    refine List.mem_flatMap.mpr ⟨p, hp, ?_⟩
    simp [hs]

/-! ## Claim theorems about the scanner -/

/-- C5 counterexample: the one-line file myeval(x) contains the text
eval(x), yet scanning yields no finding at all — the eval pattern
anchors on a word boundary, which the preceding letter suppresses. -/
theorem scanner_eval_contains_cex :
    ("myeval(x)").data = ("my").data ++ ("eval(x)").data ++ ([] : Str) ∧
    scan_security_issues [(("a.py").data, ("myeval(x)").data)] = [] :=
  ⟨by decide, by decide⟩

/-- C5 amended: a line containing the text password = "admin123" yields
a Hardcoded Secrets finding at its 1-based line number; a line
containing eval( — case-insensitively, so EVAL( as well — at a position
not immediately preceded by a word character (letter, digit or
underscore) yields an Unsafe Eval finding there. -/
theorem scanner_pattern_findings (files : List (Str × Str)) (fn content line : Str)
    (i : Nat) (pre post : Str)
    (hf : (fn, content) ∈ files) (hl : (splitOnNl content).get? i = some line) :
    (line = pre ++ ("password = \"admin123\"").data ++ post →
      (⟨fn, i + 1, ("Hardcoded Secrets").data, pyStrip line⟩ : Finding) ∈
        scan_security_issues files) ∧
    (isWordO (lastOpt pre none) = false →
      (line = pre ++ ("eval(").data ++ post ∨ line = pre ++ ("EVAL(").data ++ post) →
      (⟨fn, i + 1, ("Unsafe Eval").data, pyStrip line⟩ : Finding) ∈
        scan_security_issues files) := by
  constructor
  · intro hline
    have hd : displayType (("hardcoded_secrets").data) = ("Hardcoded Secrets").data := by
      decide
    rw [← hd]
    apply finding_mem_scan files fn content line i _ [rePassword, reApiKey] rePassword
      hf hl (List.mem_cons_of_mem _ (List.mem_cons_self _ _)) (List.mem_cons_self _ _)
    rw [hline, List.append_assoc]
    unfold reSearch
    apply searchFrom_intro
    have hm : matchToks rePassword.toks (("password = \"admin123\"").data) = true := by
      decide
    have hma := matchToks_append _ _ post hm
    unfold tryAt
    rw [hma]
    rfl
  · intro hb hline
    have hd : displayType (("unsafe_eval").data) = ("Unsafe Eval").data := by decide
    rw [← hd]
    apply finding_mem_scan files fn content line i _ [reEval, reExec] reEval hf hl
      (List.mem_cons_of_mem _ (List.mem_cons_of_mem _ (List.mem_cons_self _ _)))
      (List.mem_cons_self _ _)
    rcases hline with hline | hline
    · rw [hline, List.append_assoc]
      unfold reSearch
      apply searchFrom_intro
      have hm : matchToks reEval.toks (("eval(").data ++ post) = true := by
        have hl2 := matchToks_lits (("eval(").data) (("eval(").data) [] post
          (by decide) (matchToks_nil post)
        simpa [reEval, List.append_nil] using hl2
      have hbd : boundaryAt (lastOpt pre none) ((("eval(").data ++ post).head?) = true := by
        have hh : ((("eval(").data ++ post).head?) = some 'e' := rfl
        rw [hh]
        unfold boundaryAt
        rw [hb]
        rfl
      unfold tryAt
      rw [hbd, hm]
      rfl
    · rw [hline, List.append_assoc]
      unfold reSearch
      apply searchFrom_intro
      have hm : matchToks reEval.toks (("EVAL(").data ++ post) = true := by
        have hl2 := matchToks_lits (("eval(").data) (("EVAL(").data) [] post
          (by decide) (matchToks_nil post)
        simpa [reEval, List.append_nil] using hl2
      have hbd : boundaryAt (lastOpt pre none) ((("EVAL(").data ++ post).head?) = true := by
        have hh : ((("EVAL(").data ++ post).head?) = some 'E' := rfl
        rw [hh]
        unfold boundaryAt
        rw [hb]
        rfl
      unfold tryAt
      rw [hbd, hm]
      rfl

/-- Witness for C5: the second line of a two-line file holds the
hardcoded password, and the scanner reports it at line 2. -/
theorem scanner_pattern_findings_witness :
    (⟨("a.py").data, 2, ("Hardcoded Secrets").data,
        pyStrip (("password = \"admin123\"").data)⟩ : Finding) ∈
      scan_security_issues
        [(("a.py").data, ("z = 1\npassword = \"admin123\"").data)] :=
  (scanner_pattern_findings
      [(("a.py").data, ("z = 1\npassword = \"admin123\"").data)]
      (("a.py").data) (("z = 1\npassword = \"admin123\"").data)
      (("password = \"admin123\"").data) 1 [] []
      (List.mem_cons_self _ _) (by decide)).1 (by decide)

/-! ## Ordering of the findings list -/

/-- Findings of one category on one line (the two inner loops of the
scanner). -/
def catScan (fn : Str) (ln : Nat) (line : Str) (vc : Str × List RePat) : List Finding :=
  vc.2.flatMap (fun p =>
    if reSearch p line then [⟨fn, ln, displayType vc.1, pyStrip line⟩] else [])

theorem scanLine_eq (fn : Str) (ln : Nat) (line : Str) :
    scanLine fn ln line = securityPatterns.flatMap (catScan fn ln line) := rfl

/-- Position of a filename among the FileSet keys. -/
def idxOf (k : Str) : List Str → Nat
  | [] => 0
  | a :: rest => if a = k then 0 else idxOf k rest + 1

theorem idxOf_cons_self (k : Str) (l : List Str) : idxOf k (k :: l) = 0 := by
  simp [idxOf]

theorem idxOf_cons_ne (a k : Str) (l : List Str) (h : ¬ a = k) :
    idxOf k (a :: l) = idxOf k l + 1 := by
  simp [idxOf, h]

/-- Declaration index of a category display name. -/
def catIdxOf (t : Str) : Nat :=
  if t = ("Sql Injection").data then 0
  else if t = ("Hardcoded Secrets").data then 1
  else if t = ("Unsafe Eval").data then 2
  else if t = ("Command Injection").data then 3
  else 4

/-- Sort key of a finding: file position, line number, category index. -/
def keyOf (keys : List Str) (fd : Finding) : Nat × Nat × Nat :=
  (idxOf fd.file keys, fd.line, catIdxOf fd.type)

/-- Lexicographic order on sort keys. -/
def le3 (a b : Nat × Nat × Nat) : Prop :=
  a.1 < b.1 ∨ (a.1 = b.1 ∧ (a.2.1 < b.2.1 ∨ (a.2.1 = b.2.1 ∧ a.2.2 ≤ b.2.2)))

instance (a b : Nat × Nat × Nat) : Decidable (le3 a b) := by
  unfold le3
  infer_instance

theorem pairwise_flatMap {α β : Type} {R : β → β → Prop} {l : List α} {f : α → List β}
    (h1 : ∀ a ∈ l, (f a).Pairwise R)
    (h2 : l.Pairwise (fun a b => ∀ x ∈ f a, ∀ y ∈ f b, R x y)) :
    (l.flatMap f).Pairwise R := by
  induction l with
  | nil => simp
  | cons a rest ih =>
    rw [List.flatMap_cons, List.pairwise_append]
    rcases List.pairwise_cons.mp h2 with ⟨h2a, h2b⟩
    exact ⟨h1 a (List.mem_cons_self _ _),
      ih (fun b hb => h1 b (List.mem_cons_of_mem _ hb)) h2b,
      fun x hx y hy => by
        rcases List.mem_flatMap.mp hy with ⟨b, hb, hyb⟩
        exact h2a b hb x hx y hyb⟩

theorem mem_catScan {fn : Str} {ln : Nat} {line : Str} {vc : Str × List RePat}
    {fd : Finding} (h : fd ∈ catScan fn ln line vc) :
    fd = ⟨fn, ln, displayType vc.1, pyStrip line⟩ := by
  rcases List.mem_flatMap.mp h with ⟨p, hp, hfd⟩
  revert hfd
  split
  · intro hfd
    simpa using hfd
  · intro hfd
    simp at hfd

theorem scanLine_pairwise (fn : Str) (ln : Nat) (line : Str) :
    (scanLine fn ln line).Pairwise
      (fun x y => catIdxOf x.type ≤ catIdxOf y.type) := by
  rw [scanLine_eq]
  apply pairwise_flatMap
  · intro vc _
    apply List.pairwise_of_forall_mem_list
    intro x hx y hy
    rw [mem_catScan hx, mem_catScan hy]
  · refine List.Pairwise.cons ?_ (List.Pairwise.cons ?_
      (List.Pairwise.cons ?_ (List.Pairwise.cons ?_ List.Pairwise.nil))) <;>
    · intro b hb x hx y hy
      rw [mem_catScan hx, mem_catScan hy]
      fin_cases hb <;> exact of_decide_eq_true rfl

theorem mem_scanLine {fn : Str} {ln : Nat} {line : Str} {fd : Finding}
    (h : fd ∈ scanLine fn ln line) :
    fd.file = fn ∧ fd.line = ln := by
  rw [scanLine_eq] at h
  rcases List.mem_flatMap.mp h with ⟨vc, hvc, hfd⟩
  rw [mem_catScan hfd]
  exact ⟨rfl, rfl⟩

theorem enumFrom_fst_le {α : Type} :
    ∀ (l : List α) (n : Nat) (p : Nat × α), p ∈ enumFrom n l → n ≤ p.1 := by
  intro l
  induction l with
  | nil => intro n p h; simp [enumFrom] at h
  | cons a rest ih =>
    intro n p h
    simp only [enumFrom, List.mem_cons] at h
    rcases h with h | h
    · subst h; exact Nat.le_refl n
    · have := ih (n + 1) p h
      omega

theorem enumFrom_pairwise {α : Type} :
    ∀ (l : List α) (n : Nat), (enumFrom n l).Pairwise (fun a b => a.1 < b.1) := by
  intro l
  induction l with
  | nil => intro n; simp [enumFrom]
  | cons a rest ih =>
    intro n
    simp only [enumFrom]
    refine List.Pairwise.cons ?_ (ih (n + 1))
    intro p hp
    have := enumFrom_fst_le rest (n + 1) p hp
    show n < p.1
    omega

theorem scanFile_pairwise (fn content : Str) :
    (scanFile fn content).Pairwise
      (fun x y => x.line < y.line ∨
        (x.line = y.line ∧ catIdxOf x.type ≤ catIdxOf y.type)) := by
  unfold scanFile
  apply pairwise_flatMap
  · intro nl _
    refine List.Pairwise.imp_of_mem ?_ (scanLine_pairwise fn nl.1 nl.2)
    intro a b ha hb hab
    right
    exact ⟨by rw [(mem_scanLine ha).2, (mem_scanLine hb).2], hab⟩
  · refine List.Pairwise.imp_of_mem ?_ (enumFrom_pairwise (splitOnNl content) 1)
    intro a b ha hb hab x hx y hy
    left
    rw [(mem_scanLine hx).2, (mem_scanLine hy).2]
    exact hab

theorem mem_scanFile {fn content : Str} {fd : Finding}
    (h : fd ∈ scanFile fn content) : fd.file = fn := by
  unfold scanFile at h
  rcases List.mem_flatMap.mp h with ⟨nl, _, hfd⟩
  exact (mem_scanLine hfd).1

theorem mem_scan_files {files : List (Str × Str)} {fd : Finding}
    (h : fd ∈ scan_security_issues files) : fd.file ∈ files.map Prod.fst := by
  unfold scan_security_issues at h
  rcases List.mem_flatMap.mp h with ⟨fc, hfc, hfd⟩
  rw [mem_scanFile hfd]
  exact List.mem_map_of_mem _ hfc

theorem scan_sorted : ∀ (files : List (Str × Str)), (files.map Prod.fst).Nodup →
    (scan_security_issues files).Pairwise
      (fun x y => le3 (keyOf (files.map Prod.fst) x) (keyOf (files.map Prod.fst) y)) := by
  intro files
  induction files with
  | nil => intro _; simp [scan_security_issues]
  | cons fc rest ih =>
    intro hnd
    simp only [List.map_cons, List.nodup_cons] at hnd
    obtain ⟨hni, hnd2⟩ := hnd
    have hsc : scan_security_issues (fc :: rest) =
        scanFile fc.1 fc.2 ++ scan_security_issues rest := by
      unfold scan_security_issues
      rw [List.flatMap_cons]
    rw [hsc, List.pairwise_append]
    refine ⟨?_, ?_, ?_⟩
    · refine List.Pairwise.imp_of_mem ?_ (scanFile_pairwise fc.1 fc.2)
      intro a b ha hb hab
      have e1 : idxOf a.file (List.map Prod.fst (fc :: rest)) = 0 := by
        rw [List.map_cons, mem_scanFile ha, idxOf_cons_self]
      have e2 : idxOf b.file (List.map Prod.fst (fc :: rest)) = 0 := by
        rw [List.map_cons, mem_scanFile hb, idxOf_cons_self]
      unfold le3 keyOf
      rw [e1, e2]
      exact Or.inr ⟨rfl, hab⟩
    · refine List.Pairwise.imp_of_mem ?_ (ih hnd2)
      intro a b ha hb hab
      have hfa : a.file ∈ rest.map Prod.fst := mem_scan_files ha
      have hfb : b.file ∈ rest.map Prod.fst := mem_scan_files hb
      have hna : ¬ fc.1 = a.file := fun he => hni (he ▸ hfa)
      have hnb : ¬ fc.1 = b.file := fun he => hni (he ▸ hfb)
      have hia : idxOf a.file (List.map Prod.fst (fc :: rest)) =
          idxOf a.file (List.map Prod.fst rest) + 1 := by
        rw [List.map_cons]
        exact idxOf_cons_ne fc.1 a.file _ hna
      have hib : idxOf b.file (List.map Prod.fst (fc :: rest)) =
          idxOf b.file (List.map Prod.fst rest) + 1 := by
        rw [List.map_cons]
        exact idxOf_cons_ne fc.1 b.file _ hnb
      unfold le3 keyOf
      rw [hia, hib]
      rcases hab with h | ⟨he, hrest2⟩
      · have h2 : idxOf a.file (List.map Prod.fst rest) <
            idxOf b.file (List.map Prod.fst rest) := h
        exact Or.inl (show idxOf a.file (List.map Prod.fst rest) + 1 <
          idxOf b.file (List.map Prod.fst rest) + 1 by omega)
      · have he2 : idxOf a.file (List.map Prod.fst rest) =
            idxOf b.file (List.map Prod.fst rest) := he
        exact Or.inr ⟨show idxOf a.file (List.map Prod.fst rest) + 1 =
          idxOf b.file (List.map Prod.fst rest) + 1 by omega, hrest2⟩
    · intro x hx y hy
      have hfy : y.file ∈ rest.map Prod.fst := mem_scan_files hy
      have hny : ¬ fc.1 = y.file := fun he => hni (he ▸ hfy)
      have e0 : idxOf x.file (List.map Prod.fst (fc :: rest)) = 0 := by
        rw [List.map_cons, mem_scanFile hx, idxOf_cons_self]
      have ey : idxOf y.file (List.map Prod.fst (fc :: rest)) =
          idxOf y.file (List.map Prod.fst rest) + 1 := by
        rw [List.map_cons]
        exact idxOf_cons_ne fc.1 y.file _ hny
      unfold le3 keyOf
      rw [e0, ey]
      exact Or.inl (show 0 < idxOf y.file (List.map Prod.fst rest) + 1 by omega)

/-- C9: for a FileSet with distinct filenames, the findings list is
ordered by file position in the FileSet, then line number, then
category declaration order; and nothing is deduplicated — a line whose
text matches both hardcoded-secret regexes yields two identical
findings. -/
theorem scan_ordering (files : List (Str × Str))
    (hnd : (files.map Prod.fst).Nodup) :
    (scan_security_issues files).Pairwise
      (fun x y => le3 (keyOf (files.map Prod.fst) x) (keyOf (files.map Prod.fst) y)) ∧
    scan_security_issues
        [(("a.py").data, ("password = \"a\" api_key = \"b\"").data)] =
      [⟨("a.py").data, 1, ("Hardcoded Secrets").data,
          ("password = \"a\" api_key = \"b\"").data⟩,
       ⟨("a.py").data, 1, ("Hardcoded Secrets").data,
          ("password = \"a\" api_key = \"b\"").data⟩] :=
  ⟨scan_sorted files hnd, by decide⟩

/-- Witness for C9 at a two-file FileSet with distinct names. -/
theorem scan_ordering_witness :
    (scan_security_issues
        [(("a.py").data, ("eval(x)").data), (("b.py").data, ("os.system(c)").data)]).Pairwise
      (fun x y =>
        le3 (keyOf ([("a.py").data, ("b.py").data]) x)
          (keyOf ([("a.py").data, ("b.py").data]) y)) :=
  (scan_ordering
      [(("a.py").data, ("eval(x)").data), (("b.py").data, ("os.system(c)").data)]
      (by decide)).1

/-! ## ReviewClient request construction (`review_code_with_llm`) -/

/-- Endpoint URL `GROQ_CHAT_COMPLETIONS_URL`. -/
def groqUrl : Str := ("https://api.groq.com/openai/v1/chat/completions").data

/-- Python `os.getenv(..., default)` for the model name `AI_MODEL`. -/
def modelName (env : Option Str) : Str :=
  match env with
  | some m => m
  | none => ("llama-3.1-8b-instant").data

/-- Decimal rendering of a natural number. -/
def natToStr (n : Nat) : Str := Nat.toDigits 10 n

/-- Python `str()` of a nonnegative float rounded to two decimals (the
shortest-repr convention: trailing zero digits of the fraction are
dropped, but at least one fractional digit is printed). -/
def formatFloat2 (q : ℚ) : Str :=
  let k : Nat := (⌊q * 100⌋).toNat
  let whole := natToStr (k / 100)
  let rem := k % 100
  if rem = 0 then whole ++ (".0").data
  else if rem % 10 = 0 then whole ++ (".").data ++ natToStr (rem / 10)
  else whole ++ (".").data ++ (if rem < 10 then '0' :: natToStr rem else natToStr rem)

/-- Per-file digest embedded in the system message (`metrics_summary`). -/
def metricsSummaryOf (metrics : List (Str × FileMetrics)) : Str :=
  List.intercalate ("\n".data)
    (metrics.map (fun fm =>
      ("File: ").data ++ fm.1 ++ (" - Lines: ").data ++ natToStr fm.2.code_lines ++
      (", Complexity: ").data ++ natToStr fm.2.complexity_score ++
      (", Comments: ").data ++ formatFloat2 fm.2.comment_pct ++ ("%").data))

/-- Security digest embedded in the system message
(`security_summary`): empty when there are no findings, otherwise the
first five findings. -/
def securitySummaryOf (issues : List Finding) : Str :=
  match issues with
  | [] => []
  | _ =>
    ("SECURITY ALERTS FOUND:\n").data ++
    List.intercalate ("\n".data)
      ((issues.take 5).map (fun i =>
        ("⚠️ ").data ++ i.type ++ (" in ").data ++ i.file ++
          (":").data ++ natToStr i.line)) ++
    ("\n\n").data

/-- The system message (`system_message` literal of the source). -/
def systemMessageOf (metrics : List (Str × FileMetrics)) (issues : List Finding) : Str :=
  ("You are a senior software engineer performing a code review.\n").data ++
  securitySummaryOf issues ++
  ("CODE METRICS:\n").data ++ metricsSummaryOf metrics ++ ("\n\n").data ++
  ("You must return ONLY a single valid JSON object, no markdown, no backticks.\n" ++
   "Focus on:\n" ++
   "- Code complexity and maintainability\n" ++
   "- Readability and clarity\n" ++
   "- Security vulnerabilities (SQL injection, XSS, authentication)\n" ++
   "- Performance bottlenecks and optimization opportunities\n" ++
   "- Testing gaps and edge cases\n" ++
   "- Best practices and design patterns\n" ++
   "- Documentation quality\n\n" ++
   "The JSON object MUST have this shape:\n" ++
   "\x7b\n" ++
   "  \"summary\": \"short high-level summary with overall quality rating (1-10)\",\n" ++
   "  \"details\": \"full detailed review in plain text\",\n" ++
   "  \"quality_score\": 7.5,\n" ++
   "  \"strengths\": [\"list of good practices found\"],\n" ++
   "  \"issues\": [\n" ++
   "    \x7b\n" ++
   "      \"id\": \"unique-issue-id\",\n" ++
   "      \"file\": \"filename\",\n" ++
   "      \"line_start\": 0,\n" ++
   "      \"line_end\": 0,\n" ++
   "      \"severity\": \"critical | high | medium | low | info\",\n" ++
   "      \"category\": \"bug | security | performance | readability | style | test | other\",\n" ++
   "      \"message\": \"one-sentence description\",\n" ++
   "      \"suggestion\": \"how to fix it\",\n" ++
   "      \"code_patch\": \"optional code snippet\"\n" ++
   "    \x7d\n" ++
   "  ]\n" ++
   "\x7d\n" ++
   "If there are no issues, return an empty list for \"issues\".").data

/-- The user message (`user_message` of the source). -/
def userMessageOf (files : List (Str × Str)) : Str :=
  ("Review the following code files and provide a professional code review.\n\n").data ++
  build_prompt_from_files files

/-- Payload of the single chat-completion POST: bearer credential,
model, the two messages, fixed temperature 0.2. -/
structure GroqRequest where
  url : Str
  apiKey : Str
  model : Str
  systemMessage : Str
  userMessage : Str
  temperature : ℚ

/-- Request-building phase of `review_code_with_llm`: the credential
check is the first statement of the function, before metrics, prompt
construction and the network call; an absent or empty credential
therefore raises before any request value exists. -/
def reviewRequest (apiKey aiModelEnv : Option Str) (files : List (Str × Str)) :
    Except LLMError GroqRequest :=
  if credentialMissing apiKey then
    Except.error (LLMError.configError ("GROQ_API_KEY is not set in environment (.env).".data))
  else
    Except.ok ⟨groqUrl, apiKey.getD [], modelName aiModelEnv,
      systemMessageOf (calculate_code_metrics files) (scan_security_issues files),
      userMessageOf files, 1 / 5⟩

/-- C8: with no credential configured, both the request builder and the
whole pipeline fail with the configuration error — uniformly in the
transport oracle, so no request is attempted and no fallback is
produced; with a credential configured, no configuration error is
raised. -/
theorem config_check_before_request (apiKey aiModelEnv : Option Str)
    (files : List (Str × Str)) :
    (credentialMissing apiKey = true →
      reviewRequest apiKey aiModelEnv files =
        Except.error (LLMError.configError
          ("GROQ_API_KEY is not set in environment (.env).".data)) ∧
      ∀ (content : Str) (parsed : Option Json),
        review_code_with_llm apiKey files content parsed =
          Except.error (LLMError.configError
            ("GROQ_API_KEY is not set in environment (.env).".data))) ∧
    (credentialMissing apiKey = false →
      (reviewRequest apiKey aiModelEnv files).isOk = true) := by
  constructor
  · intro h
    constructor
    · unfold reviewRequest
      rw [h]
      rfl
    · intro content parsed
      unfold review_code_with_llm
      rw [h]
      rfl
  · intro h
    unfold reviewRequest
    rw [h]
    rfl

/-- Witness for C8: an absent credential fails the pipeline for every
oracle reply; the credential k lets the request through. -/
theorem config_check_witness :
    review_code_with_llm none [] [] none =
      Except.error (LLMError.configError
        ("GROQ_API_KEY is not set in environment (.env).".data)) ∧
    (reviewRequest (some ("k".data)) none []).isOk = true :=
  ⟨((config_check_before_request none none []).1 (by decide)).2 [] none,
   (config_check_before_request (some ("k".data)) none []).2 (by decide)⟩
